import Mathlib

/-!
Verification of the DICOMLite core: dataset decoding (`src/utils/dicomParser.ts`),
instance ordering, hierarchy grouping, and the window/level pixel transform
(`src/components/Viewport.tsx`).

Modelling conventions for the shallow embedding:
* ECMAScript numbers are modelled exactly.  Where only finite values can occur
  we use `ℚ`; where `NaN`/`Infinity` are observable (the decoder's `parseFloat`
  pipeline) we use the four-case type `JsNum`.  Double-precision rounding is not
  modelled; every concrete value appearing in the claims is exactly
  representable, and none of the claims depends on float rounding.
* `dicom-parser`'s `DataSet` object (an external library) is modelled abstractly
  as accessor functions: `string`/`uint16` return `Option String`/`Option ℕ`,
  where `none` covers both "tag absent" (undefined) and "accessor threw"
  (every call site catches and maps both to `null`).  A top-level parse
  exception of `dicomParser.parseDicom` is modelled as the input `Option DataSet`
  being `none`.
* `Array.prototype.sort` (required to be a stable comparison sort by ES2019)
  is modelled as a stable merge sort with `le a b := cmp a b ≤ 0`.  When the
  comparator is a consistent comparison function the stable-sorted result is
  unique, so any stable sort is an exact model of the engine; when it is not,
  ECMA-262 leaves the resulting order implementation-defined, and no theorem
  below relies on the model's specific order on such inputs — only on
  order-independent facts (the result is a permutation) or on inputs where
  the comparator is consistent.
* JS `Map` (string keys, insertion order) is modelled as an association list.
-/

/-- Model of an ECMAScript number as produced by `parseFloat`: `NaN`, the two
infinities, or a finite value (modelled exactly as a rational). -/
inductive JsNum where
  | nan : JsNum
  | posInf : JsNum
  | negInf : JsNum
  | num : ℚ → JsNum
deriving DecidableEq, Repr

/-- Decimal digit test for the `parseFloat` model. -/
def isDigitChar (c : Char) : Bool := '0' ≤ c && c ≤ '9'

/-- Numeric value of a decimal digit character. -/
def digitVal (c : Char) : ℕ := c.toNat - 48

/-- Consume a maximal run of decimal digits, returning the accumulated value,
the number of digits consumed, and the remaining characters. -/
def readDigits : List Char → ℕ → ℕ → ℕ × ℕ × List Char
  | c :: cs, acc, n =>
    if isDigitChar c then readDigits cs (acc * 10 + digitVal c) (n + 1)
    else (acc, n, c :: cs)
  | [], acc, n => (acc, n, [])

/-- Parse the decimal mantissa `Digits [. Digits] | . Digits` of a JS
`StrDecimalLiteral`; `none` when no digit is present. -/
def parseMantissa (cs : List Char) : Option (ℚ × List Char) :=
  let r1 := readDigits cs 0 0
  match r1.2.2 with
  | '.' :: rest2 =>
    let r2 := readDigits rest2 0 0
    if r1.2.1 + r2.2.1 = 0 then none
    else some ((r1.1 : ℚ) + (r2.1 : ℚ) / (10 : ℚ) ^ r2.2.1, r2.2.2)
  | _ => if r1.2.1 = 0 then none else some ((r1.1 : ℚ), r1.2.2)

/-- Parse the digits of an exponent after an optional sign; `none` when the
first character is not a digit (then the `e` is not part of the literal). -/
def expDigits (ds : List Char) (sign : ℤ) : Option ℤ :=
  match ds with
  | d :: _ => if isDigitChar d then some (sign * ((readDigits ds 0 0).1 : ℤ)) else none
  | [] => none

/-- Parse an optional exponent part `e` or `E`, optional sign, digits; an ill-formed exponent
contributes `0` (the literal ends before the `e`). -/
def parseExp (cs : List Char) : ℤ :=
  match cs with
  | 'e' :: rest =>
    (match rest with
     | '+' :: ds => (expDigits ds 1).getD 0
     | '-' :: ds => (expDigits ds (-1)).getD 0
     | ds => (expDigits ds 1).getD 0)
  | 'E' :: rest =>
    (match rest with
     | '+' :: ds => (expDigits ds 1).getD 0
     | '-' :: ds => (expDigits ds (-1)).getD 0
     | ds => (expDigits ds 1).getD 0)
  | _ => 0

/-- JS `StrWhiteSpace` characters (the common ones). -/
def isSpaceChar (c : Char) : Bool :=
  c = ' ' || c = '\t' || c = '\n' || c = '\r' || c = '\x0b' || c = '\x0c'

/-- Parse the unsigned part of a JS decimal literal: the `Infinity` literal or
a decimal mantissa with optional exponent. -/
def parseUnsigned (cs : List Char) (sign : ℚ) : JsNum :=
  if cs.take 8 = "Infinity".data then
    (if sign < 0 then JsNum.negInf else JsNum.posInf)
  else
    match parseMantissa cs with
    | none => JsNum.nan
    | some (m, rest) => JsNum.num (sign * m * (10 : ℚ) ^ parseExp rest)

/-- Model of the ECMAScript builtin `parseFloat`: skip leading whitespace, read
an optional sign, then the longest valid prefix of a decimal literal; `NaN`
when no prefix parses.  (Double rounding and overflow-to-`Infinity` are not
modelled; values are kept exact.) -/
def jsParseFloat (s : String) : JsNum :=
  let cs := s.data.dropWhile (fun c => isSpaceChar c)
  match cs with
  | '+' :: rest => parseUnsigned rest 1
  | '-' :: rest => parseUnsigned rest (-1)
  | _ => parseUnsigned cs 1

/-- Model of JS `Math.round` on an exact value: round half toward positive
infinity, i.e. the floor of `q + 1/2`. -/
def jsRound (q : ℚ) : ℤ := ⌊q + 1/2⌋

/-- Evaluation helper: when `q + 1/2` is an exact integer `z`, `jsRound q = z`. -/
theorem jsRound_int (q : ℚ) (z : ℤ) (h : q + 1/2 = (z : ℚ)) : jsRound q = z := by
  rw [jsRound, h, Int.floor_intCast]

/-- `Viewport.renderImage`: `const modalityValue = pixelValue * rescaleSlope +
rescaleIntercept` (src/components/Viewport.tsx line 160). -/
def modalityValue (pixelValue rescaleSlope rescaleIntercept : ℚ) : ℚ :=
  pixelValue * rescaleSlope + rescaleIntercept

/-- `Viewport.renderImage`: `const windowLow = wc - ww / 2` (line 137). -/
def windowLow (wc ww : ℚ) : ℚ := wc - ww / 2

/-- `Viewport.renderImage`: `const windowHigh = wc + ww / 2` (line 138). -/
def windowHigh (wc ww : ℚ) : ℚ := wc + ww / 2

/-- `Viewport.renderImage` lines 163-170: clamp at the window bounds, otherwise
`Math.round(((modalityValue - windowLow) / ww) * 255)`. -/
def displayValue (mv wc ww : ℚ) : ℤ :=
  if mv ≤ windowLow wc ww then 0
  else if windowHigh wc ww ≤ mv then 255
  else jsRound ((mv - windowLow wc ww) / ww * 255)

/-- Characters split: model of JS `String.prototype.split` with a one-character
separator, at the character-list level. -/
def splitChars (sep : Char) : List Char → List Char → List (List Char)
  | [], acc => [acc.reverse]
  | c :: cs, acc =>
    if c = sep then acc.reverse :: splitChars sep cs []
    else splitChars sep cs (c :: acc)

/-- Model of JS `s.split(sep)` for a one-character separator. -/
def jsSplit (s : String) (sep : Char) : List String :=
  (splitChars sep s.data []).map String.mk

/-- Model of JS `String.prototype.trim`: strip leading and trailing
whitespace. -/
def jsTrim (s : String) : String :=
  String.mk (((s.data.dropWhile isSpaceChar).reverse.dropWhile isSpaceChar).reverse)

/-- One element of the `dicom-parser` `DataSet.elements` record: its value
representation (possibly undefined) and byte length. -/
structure DicomElement where
  vr : Option String
  length : ℕ
deriving DecidableEq

/-- Abstract model of a `dicom-parser` `DataSet` (external library): the
`string` and `uint16` accessors (where `none` stands for both "undefined" and
"accessor threw", since every call site catches and maps both to `null`), and
the `elements` record in iteration order. -/
structure DataSet where
  str : String → Option String
  u16 : String → Option ℕ
  elements : List (String × DicomElement)

/-- `getString` (dicomParser.ts lines 95-102): read a string value, trim it;
absent or throwing reads yield `null`. -/
def getString (dataSet : DataSet) (tag : String) : Option String :=
  (dataSet.str tag).map jsTrim

/-- `getNumber` (dicomParser.ts lines 107-116): read the textual value, apply
`parseFloat`, and map `NaN` (and absent/throwing reads) to `null`. -/
def getNumber (dataSet : DataSet) (tag : String) : Option JsNum :=
  match dataSet.str tag with
  | none => none
  | some s =>
    match jsParseFloat s with
    | JsNum.nan => none
    | v => some v

/-- `getInt` (dicomParser.ts lines 121-128): read a uint16 value; absent or
throwing reads yield `null`. -/
def getInt (dataSet : DataSet) (tag : String) : Option ℕ :=
  dataSet.u16 tag

/-- `getNumberArray` (dicomParser.ts lines 133-143): split on backslash, trim
and `parseFloat` each part; if any part is `NaN` the whole field is `null`. -/
def getNumberArray (dataSet : DataSet) (tag : String) : Option (List JsNum) :=
  match dataSet.str tag with
  | none => none
  | some s =>
    let parts := (jsSplit s '\\').map (fun p => jsParseFloat (jsTrim p))
    if parts.any (fun p => p == JsNum.nan) then none else some parts

/-- A decoded metadata entry (`DicomTag` in types/dicom.ts); the metadata loop
only ever produces a string, a string list, or `null` as the value. -/
structure DicomTag where
  tag : String
  vr : String
  name : String
  value : Option (String ⊕ List String)
deriving DecidableEq

/-- One image record (`DicomInstance` in types/dicom.ts), parameterised by the
number model: `JsNum` on the decoder side, `ℚ` for the finite-valued ordering
and grouping development. -/
structure DicomInstance (ν : Type) where
  filePath : String
  sopInstanceUID : String
  instanceNumber : Option ν
  imagePositionPatient : Option (List ν)
  sliceLocation : Option ν
  acquisitionNumber : Option ν
  rows : Option ℕ
  columns : Option ℕ
  bitsAllocated : Option ℕ
  bitsStored : Option ℕ
  pixelRepresentation : Option ℕ
  photometricInterpretation : Option String
  rescaleSlope : ν
  rescaleIntercept : ν
  windowCenter : Option (ν ⊕ List ν)
  windowWidth : Option (ν ⊕ List ν)
  numberOfFrames : Option ν
  transferSyntaxUID : Option String
deriving DecidableEq

/-- The study-level descriptive fields carried by a parsed file
(`Partial<DicomStudy>` without the `series` map). -/
structure StudyInfo where
  studyInstanceUID : Option String
  studyDate : Option String
  studyTime : Option String
  studyDescription : Option String
  patientName : Option String
  patientId : Option String
  patientBirthDate : Option String
  patientSex : Option String
  accessionNumber : Option String
  institutionName : Option String
  referringPhysicianName : Option String
deriving DecidableEq

/-- The series-level descriptive fields carried by a parsed file
(`Partial<DicomSeries>` without the instance lists). -/
structure SeriesInfo (ν : Type) where
  seriesInstanceUID : Option String
  seriesNumber : Option ν
  seriesDescription : Option String
  modality : Option String
  studyInstanceUID : Option String
deriving DecidableEq

/-- A successfully parsed file record (`ParsedDicomFile` in types/dicom.ts).
The `instance` field of the source is named `inst` here (`instance` is a Lean
keyword). -/
structure ParsedDicomFile (ν : Type) where
  filePath : String
  studyInstanceUID : String
  seriesInstanceUID : String
  sopInstanceUID : String
  inst : DicomInstance ν
  studyInfo : StudyInfo
  seriesInfo : SeriesInfo ν
  metadata : List (String × DicomTag)
deriving DecidableEq

/-- `formatPatientName` (dicomParser.ts lines 279-282): `null`/empty stays
`null`, otherwise every `^` becomes a space and the result is trimmed. -/
def formatPatientName (name : Option String) : Option String :=
  match name with
  | none => none
  | some s =>
    if s = "" then none
    else some (jsTrim (String.mk (s.data.map (fun c => if c = '^' then ' ' else c))))

/-- `formatTagString` (dicomParser.ts lines 287-293): `xGGGGEEEE` becomes
`(GGGG,EEEE)` upper-cased; other strings pass through. -/
def formatTagString (tag : String) : String :=
  match tag.data with
  | 'x' :: hex =>
    String.mk ((('(' :: hex.take 4) ++ (',' :: hex.drop 4) ++ [')']).map Char.toUpper)
  | _ => tag

/-- The `TAG_DICTIONARY` table (dicomParser.ts lines 13-63). -/
def tagDictionary : List (String × String) :=
  [("x00020010", "TransferSyntaxUID"), ("x00080005", "SpecificCharacterSet"),
   ("x00080008", "ImageType"), ("x00080016", "SOPClassUID"),
   ("x00080018", "SOPInstanceUID"), ("x00080020", "StudyDate"),
   ("x00080021", "SeriesDate"), ("x00080030", "StudyTime"),
   ("x00080031", "SeriesTime"), ("x00080050", "AccessionNumber"),
   ("x00080060", "Modality"), ("x00080070", "Manufacturer"),
   ("x00080080", "InstitutionName"), ("x00080090", "ReferringPhysicianName"),
   ("x00081030", "StudyDescription"), ("x0008103e", "SeriesDescription"),
   ("x00100010", "PatientName"), ("x00100020", "PatientID"),
   ("x00100030", "PatientBirthDate"), ("x00100040", "PatientSex"),
   ("x00180050", "SliceThickness"), ("x00180088", "SpacingBetweenSlices"),
   ("x00181020", "SoftwareVersions"), ("x00185100", "PatientPosition"),
   ("x0020000d", "StudyInstanceUID"), ("x0020000e", "SeriesInstanceUID"),
   ("x00200010", "StudyID"), ("x00200011", "SeriesNumber"),
   ("x00200012", "AcquisitionNumber"), ("x00200013", "InstanceNumber"),
   ("x00200032", "ImagePositionPatient"), ("x00200037", "ImageOrientationPatient"),
   ("x00201041", "SliceLocation"), ("x00280002", "SamplesPerPixel"),
   ("x00280004", "PhotometricInterpretation"), ("x00280010", "Rows"),
   ("x00280011", "Columns"), ("x00280030", "PixelSpacing"),
   ("x00280100", "BitsAllocated"), ("x00280101", "BitsStored"),
   ("x00280102", "HighBit"), ("x00280103", "PixelRepresentation"),
   ("x00281050", "WindowCenter"), ("x00281051", "WindowWidth"),
   ("x00281052", "RescaleIntercept"), ("x00281053", "RescaleSlope"),
   ("x00281054", "RescaleType"), ("x00280008", "NumberOfFrames"),
   ("x7fe00010", "PixelData")]

/-- The value computed for one metadata entry (dicomParser.ts lines 235-250):
sequences and long payloads become placeholder strings, other values are the
raw string, split on backslash when multi-valued; unreadable values are
`null`. -/
def elementValue (dataSet : DataSet) (tag : String) (el : DicomElement) :
    Option (String ⊕ List String) :=
  if el.vr = some "SQ" then some (Sum.inl "[Sequence]")
  else if 256 < el.length then
    some (Sum.inl ("[Binary data: " ++ toString el.length ++ " bytes]"))
  else
    match dataSet.str tag with
    | some s =>
      if 1 < (jsSplit s '\\').length then some (Sum.inr (jsSplit s '\\'))
      else some (Sum.inl s)
    | none => none

/-- The metadata extraction loop (dicomParser.ts lines 226-258): every element
except the pixel-data tag becomes a `DicomTag` keyed by its tag string. -/
def extractMetadata (dataSet : DataSet) : List (String × DicomTag) :=
  (dataSet.elements.filter (fun e => e.1 ≠ "x7fe00010")).map (fun e =>
    (e.1,
     { tag := formatTagString e.1
       vr := (e.2.vr).getD "UN"
       name := ((tagDictionary.lookup e.1).getD (formatTagString e.1))
       value := elementValue dataSet e.1 e.2 }))

/-- The window-value parse of `parseDicomFile` (dicomParser.ts lines 165-177):
a truthy string is split on backslash and each part parsed with `parseFloat`
(no `NaN` filtering); a single part stays scalar, several parts stay a list. -/
def parseWindowField (o : Option String) : Option (JsNum ⊕ List JsNum) :=
  match o with
  | none => none
  | some s =>
    if s = "" then none
    else
      let parts := (jsSplit s '\\').map (fun p => jsParseFloat (jsTrim p))
      if parts.length = 1 then some (Sum.inl (parts.headD JsNum.nan))
      else some (Sum.inr parts)

/-- `parseDicomFile` (dicomParser.ts lines 148-274).  The input `Option
DataSet` is the outcome of the external `dicomParser.parseDicom` call: `none`
models a parse exception, which the function's `try/catch` turns into the same
`null` result as a missing required UID. -/
def parseDicomFile (parsed : Option DataSet) (filePath : String) :
    Option (ParsedDicomFile JsNum) :=
  match parsed with
  | none => none
  | some dataSet =>
    match getString dataSet "x0020000d", getString dataSet "x0020000e",
          getString dataSet "x00080018" with
    | some studyInstanceUID, some seriesInstanceUID, some sopInstanceUID =>
      if studyInstanceUID = "" ∨ seriesInstanceUID = "" ∨ sopInstanceUID = "" then
        none
      else
        some
          { filePath := filePath
            studyInstanceUID := studyInstanceUID
            seriesInstanceUID := seriesInstanceUID
            sopInstanceUID := sopInstanceUID
            inst :=
              { filePath := filePath
                sopInstanceUID := sopInstanceUID
                instanceNumber := getNumber dataSet "x00200013"
                imagePositionPatient := getNumberArray dataSet "x00200032"
                sliceLocation := getNumber dataSet "x00201041"
                acquisitionNumber := getNumber dataSet "x00200012"
                rows := getInt dataSet "x00280010"
                columns := getInt dataSet "x00280011"
                bitsAllocated := getInt dataSet "x00280100"
                bitsStored := getInt dataSet "x00280101"
                pixelRepresentation := getInt dataSet "x00280103"
                photometricInterpretation := getString dataSet "x00280004"
                rescaleSlope := (getNumber dataSet "x00281053").getD (JsNum.num 1)
                rescaleIntercept := (getNumber dataSet "x00281052").getD (JsNum.num 0)
                windowCenter := parseWindowField (getString dataSet "x00281050")
                windowWidth := parseWindowField (getString dataSet "x00281051")
                numberOfFrames := getNumber dataSet "x00280008"
                transferSyntaxUID := getString dataSet "x00020010" }
            studyInfo :=
              { studyInstanceUID := some studyInstanceUID
                studyDate := getString dataSet "x00080020"
                studyTime := getString dataSet "x00080030"
                studyDescription := getString dataSet "x00081030"
                patientName := formatPatientName (getString dataSet "x00100010")
                patientId := getString dataSet "x00100020"
                patientBirthDate := getString dataSet "x00100030"
                patientSex := getString dataSet "x00100040"
                accessionNumber := getString dataSet "x00080050"
                institutionName := getString dataSet "x00080080"
                referringPhysicianName := getString dataSet "x00080090" }
            seriesInfo :=
              { seriesInstanceUID := some seriesInstanceUID
                seriesNumber := getNumber dataSet "x00200011"
                seriesDescription := getString dataSet "x0008103e"
                modality := some ((getString dataSet "x00080060").getD "OT")
                studyInstanceUID := some studyInstanceUID }
            metadata := extractMetadata dataSet }
    | _, _, _ => none

/-- C1: with center 40 and width 400 (low = -160, high = 240), modality -200
displays as 0, modality 300 as 255, and the center 40 as 128 (round half up,
the JS `Math.round` rule); with slope 2 and intercept -1000 a raw sample of 600
gives modality value 200 and display 230 (round(229.5) = 230 under the same
rule).  In general the modality value is `raw * slope + intercept`, values at
or below the low bound clamp to 0, and (for positive width) values at or above
the high bound clamp to 255. -/
theorem pixel_transform_boundary :
    displayValue (-200) 40 400 = 0 ∧
    displayValue 300 40 400 = 255 ∧
    displayValue 40 40 400 = 128 ∧
    modalityValue 600 2 (-1000) = 200 ∧
    displayValue (modalityValue 600 2 (-1000)) 40 400 = 230 ∧
    (∀ p s i : ℚ, modalityValue p s i = p * s + i) ∧
    (∀ mv wc ww : ℚ, mv ≤ windowLow wc ww → displayValue mv wc ww = 0) ∧
    (∀ mv wc ww : ℚ, 0 < ww → windowHigh wc ww ≤ mv → displayValue mv wc ww = 255) := by
  refine ⟨?_, ?_, ?_, by norm_num [modalityValue], ?_,
    fun p s i => rfl, fun mv wc ww h => ?_, fun mv wc ww hww h => ?_⟩
  · rw [displayValue, if_pos (by norm_num [windowLow])]
  · rw [displayValue, if_neg (by norm_num [windowLow]),
      if_pos (by norm_num [windowHigh])]
  · rw [displayValue, if_neg (by norm_num [windowLow]),
      if_neg (by norm_num [windowHigh])]
    exact jsRound_int _ 128 (by norm_num [windowLow])
  · have hm : modalityValue 600 2 (-1000) = 200 := by norm_num [modalityValue]
    rw [hm, displayValue, if_neg (by norm_num [windowLow]),
      if_neg (by norm_num [windowHigh])]
    exact jsRound_int _ 230 (by norm_num [windowLow])
  · rw [displayValue, if_pos h]
  · rw [displayValue, if_neg ?_, if_pos h]
    simp only [windowLow, windowHigh] at h ⊢
    intro hc
    linarith

/-- Witness for `pixel_transform_boundary`: the clamping clauses applied at
concrete inputs. -/
theorem pixel_transform_boundary_witness :
    displayValue (-444) 40 400 = 0 ∧ displayValue 444 40 400 = 255 :=
  ⟨pixel_transform_boundary.2.2.2.2.2.2.1 (-444) 40 400 (by norm_num [windowLow]),
   pixel_transform_boundary.2.2.2.2.2.2.2 444 40 400 (by norm_num)
     (by norm_num [windowHigh])⟩

/-- A dataset with no readable fields at all. -/
def emptyDataSet : DataSet :=
  { str := fun _ => none, u16 := fun _ => none, elements := [] }

/-- C2: if any one of the three required identifiers (study UID, series UID,
instance UID) is absent or unreadable, `parseDicomFile` rejects the whole
record, regardless of the remaining fields of the dataset. -/
theorem required_uid_gate (ds : DataSet) (path : String)
    (h : getString ds "x0020000d" = none ∨ getString ds "x0020000e" = none ∨
         getString ds "x00080018" = none) :
    parseDicomFile (some ds) path = none := by
  rcases h1 : getString ds "x0020000d" with _ | su <;>
    rcases h2 : getString ds "x0020000e" with _ | se <;>
      rcases h3 : getString ds "x00080018" with _ | so <;>
        simp_all [parseDicomFile]

/-- Witness for `required_uid_gate` at the empty dataset. -/
theorem required_uid_gate_witness :
    parseDicomFile (some emptyDataSet) "empty.dcm" = none :=
  required_uid_gate emptyDataSet "empty.dcm" (Or.inl rfl)

/-- C10: `parseDicomFile` is total; the exceptional path (a throwing
`parseDicom`, modelled by the `none` input) yields the same `null` result as
the required-UID rejection, and those are the only failure modes: on a parsed
dataset the result is `none` exactly when one of the three required UIDs is
absent, unreadable, or empty after trimming. -/
theorem parse_never_throws :
    (∀ path, parseDicomFile none path = none) ∧
    (∀ ds path, parseDicomFile (some ds) path = none ↔
      (getString ds "x0020000d" = none ∨ getString ds "x0020000d" = some "") ∨
      (getString ds "x0020000e" = none ∨ getString ds "x0020000e" = some "") ∨
      (getString ds "x00080018" = none ∨ getString ds "x00080018" = some "")) := by
  refine ⟨fun path => rfl, fun ds path => ?_⟩
  rcases h1 : getString ds "x0020000d" with _ | su <;>
    rcases h2 : getString ds "x0020000e" with _ | se <;>
      rcases h3 : getString ds "x00080018" with _ | so <;>
        simp [parseDicomFile, h1, h2, h3]
  tauto

/-- Witness for `parse_never_throws` at the empty dataset. -/
theorem parse_never_throws_witness :
    parseDicomFile (some emptyDataSet) "e.dcm" = none :=
  (parse_never_throws.2 emptyDataSet "e.dcm").mpr (Or.inl (Or.inl rfl))

/-- C9 (amended): an optional scalar numeric field whose text parses to `NaN`
(fails to parse as any number) is decoded as absent, and a decoded field is
never `NaN`; these are the only absence conditions, so a value parsing to an
infinity is returned as that infinite value rather than treated as absent. -/
theorem getNumber_nan_absent :
    (∀ ds tag, getNumber ds tag = none ↔
      ds.str tag = none ∨ ∃ s, ds.str tag = some s ∧ jsParseFloat s = JsNum.nan) ∧
    (∀ ds tag, getNumber ds tag ≠ some JsNum.nan) := by
  constructor
  · intro ds tag
    rcases h : ds.str tag with _ | s
    · simp [getNumber, h]
    · rcases hp : jsParseFloat s with _ | _ | _ | q <;> simp [getNumber, h, hp]
  · intro ds tag hcon
    rcases h : ds.str tag with _ | s
    · simp [getNumber, h] at hcon
    · rcases hp : jsParseFloat s with _ | _ | _ | q <;>
        simp [getNumber, h, hp] at hcon

/-- Witness for `getNumber_nan_absent` at the empty dataset. -/
theorem getNumber_nan_absent_witness :
    getNumber emptyDataSet "x00200013" = none :=
  (getNumber_nan_absent.1 emptyDataSet "x00200013").mpr (Or.inl rfl)

/-- A dataset whose slice-location text is the literal `Infinity`. -/
def infinityDataSet : DataSet :=
  { str := fun t => if t = "x00201041" then some "Infinity" else none
    u16 := fun _ => none
    elements := [] }

/-- C9 counterexample: the text `Infinity` parses to an infinite (non-finite)
value, and `getNumber` returns it instead of `null` — the claim requires
absence for every text that does not parse as a finite number. -/
theorem getNumber_infinity_counterexample :
    getNumber infinityDataSet "x00201041" = some JsNum.posInf ∧
    getNumber infinityDataSet "x00201041" ≠ none := by
  have hp : jsParseFloat "Infinity" = JsNum.posInf := by decide
  have h : getNumber infinityDataSet "x00201041" = some JsNum.posInf := by
    have hs : infinityDataSet.str "x00201041" = some "Infinity" := rfl
    simp [getNumber, hs, hp]
  exact ⟨h, by simp [h]⟩

/-- Helper: a `getNumberArray` success never contains `NaN`. -/
theorem getNumberArray_no_nan (ds : DataSet) (tag : String) (l : List JsNum)
    (h : getNumberArray ds tag = some l) : JsNum.nan ∉ l := by
  rcases hs : ds.str tag with _ | s
  · simp [getNumberArray, hs] at h
  · simp only [getNumberArray, hs] at h
    split at h
    · exact Option.noConfusion h
    · rename_i hany
      obtain rfl : _ = l := Option.some.inj h
      intro hm
      rw [Bool.not_eq_true, List.any_eq_false] at hany
      simpa using hany _ hm

/-- Helper: inversion of a successful decode — the position field of the
record is exactly the `getNumberArray` read. -/
theorem parseDicomFile_ipp (ds : DataSet) (path : String) (r : ParsedDicomFile JsNum)
    (h : parseDicomFile (some ds) path = some r) :
    r.inst.imagePositionPatient = getNumberArray ds "x00200032" := by
  rcases h1 : getString ds "x0020000d" with _ | su <;>
    rcases h2 : getString ds "x0020000e" with _ | se <;>
      rcases h3 : getString ds "x00080018" with _ | so <;>
        simp only [parseDicomFile, h1, h2, h3] at h <;>
          try exact Option.noConfusion h
  split at h
  · exact Option.noConfusion h
  · obtain rfl : _ = r := Option.some.inj h
    rfl

/-- A dataset with valid required UIDs whose window-center text has one
numeric and one non-numeric component. -/
def nanWindowDataSet : DataSet :=
  { str := fun t =>
      if t = "x0020000d" then some "S" else
      if t = "x0020000e" then some "SE" else
      if t = "x00080018" then some "I" else
      if t = "x00281050" then some "1\\abc" else none
    u16 := fun _ => none
    elements := [] }

/-- Helper: evaluation of the decode of `nanWindowDataSet` — the record is
accepted and its window center is the partially parsed list `[1, NaN]`. -/
theorem nanWindow_eval :
    (parseDicomFile (some nanWindowDataSet) "f.dcm").map
        (fun r => r.inst.windowCenter)
      = some (some (Sum.inr [JsNum.num 1, JsNum.nan])) := by
  have e1 : getString nanWindowDataSet "x0020000d" = some "S" := by decide
  have e2 : getString nanWindowDataSet "x0020000e" = some "SE" := by decide
  have e3 : getString nanWindowDataSet "x00080018" = some "I" := by decide
  have hp1 : jsParseFloat (jsTrim "1") = JsNum.num 1 := by
    have h : readDigits ['1'] 0 0 = (1, 1, []) := by decide
    have ht : jsTrim "1" = "1" := by decide
    rw [ht]
    show parseUnsigned ['1'] 1 = JsNum.num 1
    rw [parseUnsigned, if_neg (by decide)]
    simp [parseMantissa, h, parseExp]
  have hp2 : jsParseFloat (jsTrim "abc") = JsNum.nan := by decide
  have hsplit : jsSplit "1\\abc" '\\' = ["1", "abc"] := by decide
  have hw : parseWindowField (getString nanWindowDataSet "x00281050")
      = some (Sum.inr [JsNum.num 1, JsNum.nan]) := by
    have hg : getString nanWindowDataSet "x00281050" = some "1\\abc" := by decide
    rw [hg, parseWindowField]
    simp [hsplit, hp1, hp2]
  simp [parseDicomFile, e1, e2, e3, hw]

/-- C6 (amended): for the image position vector (decoded via
`getNumberArray`), if any backslash-separated component parses to `NaN` the
whole field is absent, and a decoded position vector never contains `NaN`;
the window center/width fields, by contrast, are split and parsed
component-wise without a `NaN` check, so a decoded record can carry a
partially parsed window value with `NaN` components. -/
theorem numberArray_all_or_nothing :
    (∀ ds tag s, ds.str tag = some s →
      (∃ p ∈ jsSplit s '\\', jsParseFloat (jsTrim p) = JsNum.nan) →
      getNumberArray ds tag = none) ∧
    (∀ ds tag l, getNumberArray ds tag = some l → JsNum.nan ∉ l) ∧
    (∀ ds path r, parseDicomFile (some ds) path = some r →
      ∀ l, r.inst.imagePositionPatient = some l → JsNum.nan ∉ l) ∧
    (∃ ds path r, parseDicomFile (some ds) path = some r ∧
      r.inst.windowCenter = some (Sum.inr [JsNum.num 1, JsNum.nan])) := by
  refine ⟨?_, getNumberArray_no_nan, ?_, ?_⟩
  · intro ds tag s hs ⟨p, hp, hnan⟩
    simp only [getNumberArray, hs]
    rw [if_pos]
    rw [List.any_eq_true]
    exact ⟨jsParseFloat (jsTrim p), List.mem_map_of_mem _ hp, by simp [hnan]⟩
  · intro ds path r hr l hl
    rw [parseDicomFile_ipp ds path r hr] at hl
    exact getNumberArray_no_nan ds "x00200032" l hl
  · rcases ho : parseDicomFile (some nanWindowDataSet) "f.dcm" with _ | r
    · exact absurd (ho ▸ nanWindow_eval) (by simp)
    · refine ⟨nanWindowDataSet, "f.dcm", r, ho, ?_⟩
      have := ho ▸ nanWindow_eval
      simpa using this

/-- C6 counterexample: concrete rejected prediction — for the window-center
text `1\abc`, where the second component fails to parse, the claim requires
the whole field to be absent, but the decoded record carries the partially
parsed list `[1, NaN]`. -/
theorem windowCenter_nan_counterexample :
    (parseDicomFile (some nanWindowDataSet) "f.dcm").map
        (fun r => r.inst.windowCenter)
      = some (some (Sum.inr [JsNum.num 1, JsNum.nan])) ∧
    some (Sum.inr [JsNum.num 1, JsNum.nan]) ≠ (none : Option (JsNum ⊕ List JsNum)) :=
  ⟨nanWindow_eval, by simp⟩

/-- Witness for `numberArray_all_or_nothing`: its clauses applied at concrete
inputs. -/
theorem numberArray_all_or_nothing_witness :
    getNumberArray nanWindowDataSet "x00281050" = none ∧
    getNumberArray emptyDataSet "x00200032" ≠ some [JsNum.nan] :=
  ⟨numberArray_all_or_nothing.1 nanWindowDataSet "x00281050" "1\\abc" (by decide)
      ⟨"abc", by decide, by decide⟩,
   fun h => numberArray_all_or_nothing.2.1 emptyDataSet "x00200032" [JsNum.nan] h
      (by simp)⟩

/-- `Viewport.renderImage` lines 106-114: the window center/width actually
used — when both window tags are truthy (present, non-empty) the first
backslash-separated part of each is parsed with `parseFloat`; otherwise the
current viewer-state values are kept. -/
def chooseWindow (dataSet : DataSet) (stateWc stateWw : JsNum) : JsNum × JsNum :=
  match dataSet.str "x00281050", dataSet.str "x00281051" with
  | some wcStr, some wwStr =>
    if wcStr = "" ∨ wwStr = "" then (stateWc, stateWw)
    else (jsParseFloat ((jsSplit wcStr '\\').headD ""),
          jsParseFloat ((jsSplit wwStr '\\').headD ""))
  | _, _ => (stateWc, stateWw)

/-- The initial viewer window state (Viewport.tsx lines 31-37). -/
def initialWindowCenter : ℚ := 40

/-- The initial viewer window width (Viewport.tsx lines 31-37). -/
def initialWindowWidth : ℚ := 400

/-- A dataset carrying window center 40 and window width 0. -/
def zeroWidthDataSet : DataSet :=
  { str := fun t =>
      if t = "x00281050" then some "40" else
      if t = "x00281051" then some "0" else none
    u16 := fun _ => none
    elements := [] }

/-- C7 counterexample: for a file carrying window width `0` (not strictly
positive), the claim requires the caller to substitute the default window
(center 40, width 400); instead `renderImage` uses the file's width 0
unchanged. -/
theorem window_zero_width_counterexample :
    chooseWindow zeroWidthDataSet (JsNum.num initialWindowCenter)
        (JsNum.num initialWindowWidth) = (JsNum.num 40, JsNum.num 0) ∧
    JsNum.num 0 ≠ JsNum.num 400 := by
  constructor
  · have hc : zeroWidthDataSet.str "x00281050" = some "40" := rfl
    have hw : zeroWidthDataSet.str "x00281051" = some "0" := rfl
    have hp40 : jsParseFloat "40" = JsNum.num 40 := by
      have h : readDigits ['4', '0'] 0 0 = (40, 2, []) := by decide
      show parseUnsigned ['4', '0'] 1 = JsNum.num 40
      rw [parseUnsigned, if_neg (by decide)]
      simp [parseMantissa, h, parseExp]
    have hp0 : jsParseFloat "0" = JsNum.num 0 := by
      have h : readDigits ['0'] 0 0 = (0, 1, []) := by decide
      show parseUnsigned ['0'] 1 = JsNum.num 0
      rw [parseUnsigned, if_neg (by decide)]
      simp [parseMantissa, h, parseExp]
    have hs40 : jsSplit "40" '\\' = ["40"] := by decide
    have hs0 : jsSplit "0" '\\' = ["0"] := by decide
    simp [chooseWindow, hc, hw, hs40, hs0, hp40, hp0]
  · simp

/-- C7 (amended): `renderImage` keeps the viewer-state window (initially
center 40, width 400) only when a window tag is absent or empty; a window
width read from the file is used unchanged even when it is not strictly
positive.  Nevertheless the pixel transform never divides by a non-positive
width: whenever `ww ≤ 0` the interpolation branch is unreachable and every
sample clamps to 0 or 255. -/
theorem window_default_and_no_division :
    (∀ ds wc0 ww0, (ds.str "x00281050" = none ∨ ds.str "x00281050" = some "" ∨
        ds.str "x00281051" = none ∨ ds.str "x00281051" = some "") →
      chooseWindow ds wc0 ww0 = (wc0, ww0)) ∧
    ((initialWindowCenter, initialWindowWidth) = (40, 400)) ∧
    (∀ mv wc ww : ℚ, ww ≤ 0 →
      displayValue mv wc ww = 0 ∨ displayValue mv wc ww = 255) := by
  refine ⟨?_, rfl, ?_⟩
  · intro ds wc0 ww0 h
    rw [chooseWindow]
    split
    · rename_i wcS wwS h1 h2
      have hcond : wcS = "" ∨ wwS = "" := by
        rcases h with h | h | h | h <;> simp_all
      rw [if_pos hcond]
    · rfl
  · intro mv wc ww hww
    rw [displayValue]
    split_ifs with h1 h2
    · exact Or.inl rfl
    · exact Or.inr rfl
    · exfalso
      rw [windowLow] at h1
      rw [windowHigh] at h2
      push_neg at h1 h2
      linarith

/-- Witness for `window_default_and_no_division`: its clauses at concrete
inputs. -/
theorem window_default_and_no_division_witness :
    chooseWindow emptyDataSet (JsNum.num 40) (JsNum.num 400)
        = (JsNum.num 40, JsNum.num 400) ∧
    (displayValue 5 3 0 = 0 ∨ displayValue 5 3 0 = 255) :=
  ⟨window_default_and_no_division.1 emptyDataSet (JsNum.num 40) (JsNum.num 400)
      (Or.inl rfl),
   window_default_and_no_division.2.2 5 3 0 le_rfl⟩

/-- Strict lexicographic comparison of character lists (code-point order);
used to model `String.prototype.localeCompare` under the default code-point
collation. -/
def lexLtChars : List Char → List Char → Bool
  | [], [] => false
  | [], _ :: _ => true
  | _ :: _, [] => false
  | c :: cs, d :: ds => if c < d then true else if d < c then false else lexLtChars cs ds

/-- Model of `a.localeCompare(b)` (code-point collation): negative, zero, or
positive. -/
def pathCmp (a b : String) : ℚ :=
  if lexLtChars a.data b.data then -1
  else if lexLtChars b.data a.data then 1
  else 0

theorem lexLt_asymm : ∀ {x y : List Char},
    lexLtChars x y = true → lexLtChars y x = false
  | [], [], h => by simp [lexLtChars] at h
  | [], _ :: _, _ => rfl
  | _ :: _, [], h => by simp [lexLtChars] at h
  | c :: cs, d :: ds, h => by
    rw [lexLtChars] at h ⊢
    rcases lt_trichotomy c d with hcd | hcd | hcd
    · rw [if_neg (asymm hcd), if_pos hcd]
    · subst hcd
      rw [if_neg (lt_irrefl c), if_neg (lt_irrefl c)] at h ⊢
      exact lexLt_asymm h
    · rw [if_neg (asymm hcd), if_pos hcd] at h
      exact absurd h (by simp)

theorem lexLt_trans : ∀ {x y z : List Char},
    lexLtChars x y = true → lexLtChars y z = true → lexLtChars x z = true
  | [], [], [], h1, _ => by simp [lexLtChars] at h1
  | [], _ :: _, [], _, h2 => by simp [lexLtChars] at h2
  | [], _, _ :: _, _, _ => rfl
  | _ :: _, [], _, h1, _ => by simp [lexLtChars] at h1
  | _ :: _, _ :: _, [], _, h2 => by simp [lexLtChars] at h2
  | c :: cs, d :: ds, e :: es, h1, h2 => by
    rw [lexLtChars] at h1 h2 ⊢
    rcases lt_trichotomy c d with hcd | hcd | hcd
    · rcases lt_trichotomy d e with hde | hde | hde
      · have hce : c < e := lt_trans hcd hde
        rw [if_pos hce]
      · subst hde
        rw [if_pos hcd]
      · rw [if_neg (asymm hde), if_pos hde] at h2
        exact absurd h2 (by simp)
    · subst hcd
      rw [if_neg (lt_irrefl c), if_neg (lt_irrefl c)] at h1
      rcases lt_trichotomy c e with hce | hce | hce
      · rw [if_pos hce]
      · subst hce
        rw [if_neg (lt_irrefl c), if_neg (lt_irrefl c)] at h2 ⊢
        exact lexLt_trans h1 h2
      · rw [if_neg (asymm hce), if_pos hce] at h2
        exact absurd h2 (by simp)
    · rw [if_neg (asymm hcd), if_pos hcd] at h1
      exact absurd h1 (by simp)

theorem lexLt_conn : ∀ {x y : List Char},
    lexLtChars x y = false → lexLtChars y x = false → x = y
  | [], [], _, _ => rfl
  | [], _ :: _, h1, _ => by simp [lexLtChars] at h1
  | _ :: _, [], _, h2 => by simp [lexLtChars] at h2
  | c :: cs, d :: ds, h1, h2 => by
    rw [lexLtChars] at h1 h2
    rcases lt_trichotomy c d with hcd | hcd | hcd
    · rw [if_pos hcd] at h1
      exact absurd h1 (by simp)
    · subst hcd
      rw [if_neg (lt_irrefl c), if_neg (lt_irrefl c)] at h1 h2
      rw [lexLt_conn h1 h2]
    · rw [if_neg (asymm hcd), if_pos hcd] at h2
      exact absurd h2 (by simp)

theorem pathCmp_neg (a b : String) : pathCmp b a = -pathCmp a b := by
  rcases h1 : lexLtChars a.data b.data with _ | _
  · rcases h2 : lexLtChars b.data a.data with _ | _
    · simp [pathCmp, h1, h2]
    · simp [pathCmp, h1, h2]
  · simp [pathCmp, h1, lexLt_asymm h1]

theorem pathCmp_le_iff (a b : String) :
    pathCmp a b ≤ 0 ↔ lexLtChars b.data a.data = false := by
  rw [pathCmp]
  rcases h1 : lexLtChars a.data b.data with _ | _
  · rcases h2 : lexLtChars b.data a.data with _ | _ <;> simp [h2]
  · simp [lexLt_asymm h1]

theorem pathCmp_le_trans {a b c : String}
    (h1 : pathCmp a b ≤ 0) (h2 : pathCmp b c ≤ 0) : pathCmp a c ≤ 0 := by
  rw [pathCmp_le_iff] at h1 h2 ⊢
  rcases hca : lexLtChars c.data a.data with _ | _
  · rfl
  · exfalso
    rcases hab : lexLtChars a.data b.data with _ | _
    · have hq : a.data = b.data := lexLt_conn hab h1
      rw [← hq] at h2
      rw [h2] at hca
      exact Bool.noConfusion hca
    · rcases hbc : lexLtChars b.data c.data with _ | _
      · have hq : b.data = c.data := lexLt_conn hbc h2
        rw [hq] at hab
        rw [lexLt_asymm hab] at hca
        exact Bool.noConfusion hca
      · have hac : lexLtChars a.data c.data = true := lexLt_trans hab hbc
        rw [lexLt_asymm hac] at hca
        exact Bool.noConfusion hca

/-- The Z value the comparator reads: index 2 of the image position array.
({`some`} only when the array is present and long enough; a missing index
gives `NaN` in JS, whose tolerance test is false, i.e. a fall-through). -/
def zVal (i : DicomInstance ℚ) : Option ℚ :=
  match i.imagePositionPatient with
  | some p => p[2]?
  | none => none

/-- Level 1 of the comparator (dicomParser.ts lines 300-304): the Z difference
when both instances carry positions and it exceeds the 0.001 tolerance;
otherwise fall through (`none`). -/
def level1 (a b : DicomInstance ℚ) : Option ℚ :=
  match a.imagePositionPatient, b.imagePositionPatient with
  | some pa, some pb =>
    match pa[2]?, pb[2]? with
    | some za, some zb => if |za - zb| > 1/1000 then some (za - zb) else none
    | _, _ => none
  | _, _ => none

/-- Level 2 (lines 306-309): the slice-location difference beyond the 0.001
tolerance. -/
def level2 (a b : DicomInstance ℚ) : Option ℚ :=
  match a.sliceLocation, b.sliceLocation with
  | some sa, some sb => if |sa - sb| > 1/1000 then some (sa - sb) else none
  | _, _ => none

/-- Level 3 (lines 312-314): the instance-number difference whenever both are
present — including a difference of zero, which ends the cascade. -/
def level3 (a b : DicomInstance ℚ) : Option ℚ :=
  match a.instanceNumber, b.instanceNumber with
  | some na, some nb => some (na - nb)
  | _, _ => none

/-- Level 4 (lines 317-319): the acquisition-number difference whenever both
are present. -/
def level4 (a b : DicomInstance ℚ) : Option ℚ :=
  match a.acquisitionNumber, b.acquisitionNumber with
  | some na, some nb => some (na - nb)
  | _, _ => none

/-- The comparator cascade from level 4 down: acquisition number, then the
file-path tie-break (line 323). -/
def cmpFrom4 (a b : DicomInstance ℚ) : ℚ :=
  match level4 a b with
  | some d => d
  | none => pathCmp a.filePath b.filePath

/-- The comparator cascade from level 3 down. -/
def cmpFrom3 (a b : DicomInstance ℚ) : ℚ :=
  match level3 a b with
  | some d => d
  | none => cmpFrom4 a b

/-- The comparator cascade from level 2 down. -/
def cmpFrom2 (a b : DicomInstance ℚ) : ℚ :=
  match level2 a b with
  | some d => d
  | none => cmpFrom3 a b

/-- The full five-level comparator of `sortInstances` (dicomParser.ts lines
299-324), with the source's sequence of early returns written as a cascade. -/
def cmpInstances (a b : DicomInstance ℚ) : ℚ :=
  match level1 a b with
  | some d => d
  | none => cmpFrom2 a b

/-- `sortInstances` (dicomParser.ts lines 298-325): a stable comparison sort
of a copy of the list under the five-level comparator, modelled as a stable
merge sort ordered by `cmpInstances a b ≤ 0`.  On inputs where the comparator
is consistent the stable-sorted result is unique, so this model is exact for
every conforming engine; on inputs where it is inconsistent (the tolerance
levels permit cycles) ECMA-262 leaves the order implementation-defined,
and the theorems below assert only order-independent facts about such
inputs. -/
def sortInstances (instances : List (DicomInstance ℚ)) : List (DicomInstance ℚ) :=
  instances.mergeSort (fun a b => decide (cmpInstances a b ≤ 0))

theorem level1_symm (a b : DicomInstance ℚ) :
    level1 b a = (level1 a b).map Neg.neg := by
  rw [level1, level1]
  rcases a.imagePositionPatient with _ | pa <;> rcases b.imagePositionPatient with _ | pb <;>
    try simp
  rcases pa[2]? with _ | za <;> rcases pb[2]? with _ | zb <;> try simp
  rw [abs_sub_comm]

theorem level2_symm (a b : DicomInstance ℚ) :
    level2 b a = (level2 a b).map Neg.neg := by
  rw [level2, level2]
  rcases a.sliceLocation with _ | sa <;> rcases b.sliceLocation with _ | sb <;> try simp
  rw [abs_sub_comm]

theorem level3_symm (a b : DicomInstance ℚ) :
    level3 b a = (level3 a b).map Neg.neg := by
  rw [level3, level3]
  rcases a.instanceNumber with _ | na <;> rcases b.instanceNumber with _ | nb <;> simp

theorem level4_symm (a b : DicomInstance ℚ) :
    level4 b a = (level4 a b).map Neg.neg := by
  rw [level4, level4]
  rcases a.acquisitionNumber with _ | na <;> rcases b.acquisitionNumber with _ | nb <;> simp

theorem cmpFrom4_symm (a b : DicomInstance ℚ) : cmpFrom4 b a = -cmpFrom4 a b := by
  rw [cmpFrom4, cmpFrom4, level4_symm]
  rcases level4 a b with _ | d
  · simpa using pathCmp_neg a.filePath b.filePath
  · simp

theorem cmpFrom3_symm (a b : DicomInstance ℚ) : cmpFrom3 b a = -cmpFrom3 a b := by
  rw [cmpFrom3, cmpFrom3, level3_symm]
  rcases level3 a b with _ | d
  · simpa using cmpFrom4_symm a b
  · simp

theorem cmpFrom2_symm (a b : DicomInstance ℚ) : cmpFrom2 b a = -cmpFrom2 a b := by
  rw [cmpFrom2, cmpFrom2, level2_symm]
  rcases level2 a b with _ | d
  · simpa using cmpFrom3_symm a b
  · simp

theorem cmpInstances_symm (a b : DicomInstance ℚ) :
    cmpInstances b a = -cmpInstances a b := by
  rw [cmpInstances, cmpInstances, level1_symm]
  rcases level1 a b with _ | d
  · simpa using cmpFrom2_symm a b
  · simp

theorem cmpInstances_total (a b : DicomInstance ℚ) :
    cmpInstances a b ≤ 0 ∨ cmpInstances b a ≤ 0 := by
  rcases le_total (cmpInstances a b) 0 with h | h
  · exact Or.inl h
  · refine Or.inr ?_
    rw [cmpInstances_symm a b]
    linarith

/-- Two instances carry the same presence pattern for the four optional
ordering keys (usable Z value, slice location, instance number, acquisition
number). -/
def SameShape (a b : DicomInstance ℚ) : Prop :=
  (zVal a).isSome = (zVal b).isSome ∧
  a.sliceLocation.isSome = b.sliceLocation.isSome ∧
  a.instanceNumber.isSome = b.instanceNumber.isSome ∧
  a.acquisitionNumber.isSome = b.acquisitionNumber.isSome

/-- The 0.001 tolerance is clean for a pair: whenever both carry a Z value
(resp. slice location), the values are either equal or separated by more than
the tolerance, so the tolerance never masks a real difference. -/
def CleanPair (a b : DicomInstance ℚ) : Prop :=
  (∀ za zb, zVal a = some za → zVal b = some zb → za = zb ∨ 1/1000 < |za - zb|) ∧
  (∀ sa sb, a.sliceLocation = some sa → b.sliceLocation = some sb →
    sa = sb ∨ 1/1000 < |sa - sb|)

/-- Presence transfer along an `isSome` equation: the `none` case. -/
theorem shape_none {α : Type} {o o' : Option α} (h : o.isSome = o'.isSome)
    (ho : o = none) : o' = none := by
  rcases ho' : o' with _ | v
  · rfl
  · rw [ho, ho'] at h
    simp at h

/-- Presence transfer along an `isSome` equation: the `some` case. -/
theorem shape_some {α : Type} {o o' : Option α} (h : o.isSome = o'.isSome)
    {x : α} (ho : o = some x) : ∃ y, o' = some y := by
  rw [ho] at h
  exact Option.isSome_iff_exists.mp h.symm

/-- Evaluation of the acquisition-number level when both values are present. -/
theorem cmpFrom4_eval {a b : DicomInstance ℚ} {na nb : ℚ}
    (ha : a.acquisitionNumber = some na) (hb : b.acquisitionNumber = some nb) :
    cmpFrom4 a b = na - nb := by
  simp [cmpFrom4, level4, ha, hb]

/-- Fall-through of the acquisition-number level when a value is missing. -/
theorem cmpFrom4_none {a b : DicomInstance ℚ}
    (h : a.acquisitionNumber = none ∨ b.acquisitionNumber = none) :
    cmpFrom4 a b = pathCmp a.filePath b.filePath := by
  rcases ha : a.acquisitionNumber with _ | na <;>
    rcases hb : b.acquisitionNumber with _ | nb <;> simp_all [cmpFrom4, level4]

theorem cmpFrom4_trans {a b c : DicomInstance ℚ}
    (u1 : a.acquisitionNumber.isSome = b.acquisitionNumber.isSome)
    (u2 : b.acquisitionNumber.isSome = c.acquisitionNumber.isSome)
    (h1 : cmpFrom4 a b ≤ 0) (h2 : cmpFrom4 b c ≤ 0) : cmpFrom4 a c ≤ 0 := by
  rcases ha : a.acquisitionNumber with _ | na
  · have hb := shape_none u1 ha
    have hc := shape_none u2 hb
    rw [cmpFrom4_none (Or.inl ha)] at h1 ⊢
    rw [cmpFrom4_none (Or.inl hb)] at h2
    exact pathCmp_le_trans h1 h2
  · obtain ⟨nb, hb⟩ := shape_some u1 ha
    obtain ⟨nc, hc⟩ := shape_some u2 hb
    rw [cmpFrom4_eval ha hb] at h1
    rw [cmpFrom4_eval hb hc] at h2
    rw [cmpFrom4_eval ha hc]
    linarith

/-- Evaluation of the instance-number level when both values are present. -/
theorem cmpFrom3_eval {a b : DicomInstance ℚ} {na nb : ℚ}
    (ha : a.instanceNumber = some na) (hb : b.instanceNumber = some nb) :
    cmpFrom3 a b = na - nb := by
  simp [cmpFrom3, level3, ha, hb]

/-- Fall-through of the instance-number level when a value is missing. -/
theorem cmpFrom3_none {a b : DicomInstance ℚ}
    (h : a.instanceNumber = none ∨ b.instanceNumber = none) :
    cmpFrom3 a b = cmpFrom4 a b := by
  rcases ha : a.instanceNumber with _ | na <;>
    rcases hb : b.instanceNumber with _ | nb <;> simp_all [cmpFrom3, level3]

theorem cmpFrom3_trans {a b c : DicomInstance ℚ}
    (ui1 : a.instanceNumber.isSome = b.instanceNumber.isSome)
    (ui2 : b.instanceNumber.isSome = c.instanceNumber.isSome)
    (ua1 : a.acquisitionNumber.isSome = b.acquisitionNumber.isSome)
    (ua2 : b.acquisitionNumber.isSome = c.acquisitionNumber.isSome)
    (h1 : cmpFrom3 a b ≤ 0) (h2 : cmpFrom3 b c ≤ 0) : cmpFrom3 a c ≤ 0 := by
  rcases ha : a.instanceNumber with _ | na
  · have hb := shape_none ui1 ha
    have hc := shape_none ui2 hb
    rw [cmpFrom3_none (Or.inl ha)] at h1 ⊢
    rw [cmpFrom3_none (Or.inl hb)] at h2
    exact cmpFrom4_trans ua1 ua2 h1 h2
  · obtain ⟨nb, hb⟩ := shape_some ui1 ha
    obtain ⟨nc, hc⟩ := shape_some ui2 hb
    rw [cmpFrom3_eval ha hb] at h1
    rw [cmpFrom3_eval hb hc] at h2
    rw [cmpFrom3_eval ha hc]
    linarith

/-- Evaluation of the slice-location level when both values are present. -/
theorem cmpFrom2_eval {a b : DicomInstance ℚ} {sa sb : ℚ}
    (ha : a.sliceLocation = some sa) (hb : b.sliceLocation = some sb) :
    cmpFrom2 a b = if 1/1000 < |sa - sb| then sa - sb else cmpFrom3 a b := by
  simp only [cmpFrom2, level2, ha, hb]
  split_ifs with h <;> rfl

/-- Fall-through of the slice-location level when a value is missing. -/
theorem cmpFrom2_none {a b : DicomInstance ℚ}
    (h : a.sliceLocation = none ∨ b.sliceLocation = none) :
    cmpFrom2 a b = cmpFrom3 a b := by
  rcases ha : a.sliceLocation with _ | sa <;> rcases hb : b.sliceLocation with _ | sb <;>
    simp_all [cmpFrom2, level2]

theorem cmpFrom2_trans {a b c : DicomInstance ℚ}
    (us1 : a.sliceLocation.isSome = b.sliceLocation.isSome)
    (us2 : b.sliceLocation.isSome = c.sliceLocation.isSome)
    (ui1 : a.instanceNumber.isSome = b.instanceNumber.isSome)
    (ui2 : b.instanceNumber.isSome = c.instanceNumber.isSome)
    (ua1 : a.acquisitionNumber.isSome = b.acquisitionNumber.isSome)
    (ua2 : b.acquisitionNumber.isSome = c.acquisitionNumber.isSome)
    (cab : ∀ sa sb, a.sliceLocation = some sa → b.sliceLocation = some sb →
      sa = sb ∨ 1/1000 < |sa - sb|)
    (cbc : ∀ sb sc, b.sliceLocation = some sb → c.sliceLocation = some sc →
      sb = sc ∨ 1/1000 < |sb - sc|)
    (h1 : cmpFrom2 a b ≤ 0) (h2 : cmpFrom2 b c ≤ 0) : cmpFrom2 a c ≤ 0 := by
  rcases ha : a.sliceLocation with _ | sa
  · have hb : b.sliceLocation = none := by
      rw [ha] at us1
      rcases hb' : b.sliceLocation with _ | v
      · rfl
      · rw [hb'] at us1
        simp at us1
    have hc : c.sliceLocation = none := by
      rw [hb] at us2
      rcases hc' : c.sliceLocation with _ | v
      · rfl
      · rw [hc'] at us2
        simp at us2
    rw [cmpFrom2_none (Or.inl ha)] at h1 ⊢
    rw [cmpFrom2_none (Or.inl hb)] at h2
    exact cmpFrom3_trans ui1 ui2 ua1 ua2 h1 h2
  · obtain ⟨sb, hb⟩ : ∃ v, b.sliceLocation = some v := by
      rw [ha] at us1
      exact Option.isSome_iff_exists.mp us1.symm
    obtain ⟨sc, hc⟩ : ∃ v, c.sliceLocation = some v := by
      rw [hb] at us2
      exact Option.isSome_iff_exists.mp us2.symm
    rw [cmpFrom2_eval ha hb] at h1
    rw [cmpFrom2_eval hb hc] at h2
    rw [cmpFrom2_eval ha hc]
    rcases cab sa sb ha hb with heq1 | hbig1
    · rcases cbc sb sc hb hc with heq2 | hbig2
      · subst heq1
        subst heq2
        rw [if_neg (by simp)] at h1 h2 ⊢
        exact cmpFrom3_trans ui1 ui2 ua1 ua2 h1 h2
      · subst heq1
        rw [if_neg (by simp)] at h1
        rw [if_pos hbig2] at h2 ⊢
        exact h2
    · rw [if_pos hbig1] at h1
      have hlt1 : sa - sb < -(1/1000) := by
        rcases abs_cases (sa - sb) with ⟨he, _⟩ | ⟨he, _⟩
        · rw [he] at hbig1
          linarith
        · rw [he] at hbig1
          linarith
      rcases cbc sb sc hb hc with heq2 | hbig2
      · subst heq2
        rw [if_neg (by simp)] at h2
        rw [if_pos (by rw [abs_of_nonpos (by linarith)]; linarith)]
        linarith
      · rw [if_pos hbig2] at h2
        have hlt2 : sb - sc < -(1/1000) := by
          rcases abs_cases (sb - sc) with ⟨he, _⟩ | ⟨he, _⟩
          · rw [he] at hbig2
            linarith
          · rw [he] at hbig2
            linarith
        rw [if_pos (by rw [abs_of_nonpos (by linarith)]; linarith)]
        linarith

/-- Fall-through of the Z level when a usable Z value is missing. -/
theorem level1_none (a b : DicomInstance ℚ)
    (h : zVal a = none ∨ zVal b = none) : level1 a b = none := by
  rcases hpa : a.imagePositionPatient with _ | pa <;>
    rcases hpb : b.imagePositionPatient with _ | pb <;>
      simp only [level1, hpa, hpb, zVal] at h ⊢
  rcases h with h | h
  · rw [h]
  · rw [h]
    rcases pa[2]? with _ | za
    all_goals rfl

/-- The cascade ignores the Z level when it falls through. -/
theorem cmpInstances_none (a b : DicomInstance ℚ) (h : level1 a b = none) :
    cmpInstances a b = cmpFrom2 a b := by
  simp [cmpInstances, h]

/-- Evaluation of the Z level when both usable Z values are present. -/
theorem cmpInstances_eval_z {a b : DicomInstance ℚ} {za zb : ℚ}
    (ha : zVal a = some za) (hb : zVal b = some zb) :
    cmpInstances a b = if 1/1000 < |za - zb| then za - zb else cmpFrom2 a b := by
  rcases hpa : a.imagePositionPatient with _ | pa
  · simp [zVal, hpa] at ha
  · rcases hpb : b.imagePositionPatient with _ | pb
    · simp [zVal, hpb] at hb
    · simp only [zVal, hpa] at ha
      simp only [zVal, hpb] at hb
      simp only [cmpInstances, level1, hpa, hpb, ha, hb]
      split_ifs with h <;> rfl

/-- Transitivity of the five-level comparator on uniformly shaped,
tolerance-clean instances. -/
theorem cmpInstances_trans_clean {a b c : DicomInstance ℚ}
    (sab : SameShape a b) (sbc : SameShape b c)
    (cab : CleanPair a b) (cbc : CleanPair b c)
    (h1 : cmpInstances a b ≤ 0) (h2 : cmpInstances b c ≤ 0) :
    cmpInstances a c ≤ 0 := by
  obtain ⟨z1, s1, i1, q1⟩ := sab
  obtain ⟨z2, s2, i2, q2⟩ := sbc
  rcases ha : zVal a with _ | za
  · have hb := shape_none z1 ha
    have hc := shape_none z2 hb
    rw [cmpInstances_none a b (level1_none a b (Or.inl ha))] at h1
    rw [cmpInstances_none b c (level1_none b c (Or.inl hb))] at h2
    rw [cmpInstances_none a c (level1_none a c (Or.inl ha))]
    exact cmpFrom2_trans s1 s2 i1 i2 q1 q2 cab.2 cbc.2 h1 h2
  · obtain ⟨zb, hb⟩ := shape_some z1 ha
    obtain ⟨zc, hc⟩ := shape_some z2 hb
    rw [cmpInstances_eval_z ha hb] at h1
    rw [cmpInstances_eval_z hb hc] at h2
    rw [cmpInstances_eval_z ha hc]
    rcases cab.1 za zb ha hb with heq1 | hbig1
    · rcases cbc.1 zb zc hb hc with heq2 | hbig2
      · subst heq1
        subst heq2
        rw [if_neg (by simp)] at h1 h2 ⊢
        exact cmpFrom2_trans s1 s2 i1 i2 q1 q2 cab.2 cbc.2 h1 h2
      · subst heq1
        rw [if_neg (by simp)] at h1
        rw [if_pos hbig2] at h2 ⊢
        exact h2
    · rw [if_pos hbig1] at h1
      have hlt1 : za - zb < -(1/1000) := by
        rcases abs_cases (za - zb) with ⟨he, _⟩ | ⟨he, _⟩
        · rw [he] at hbig1
          linarith
        · rw [he] at hbig1
          linarith
      rcases cbc.1 zb zc hb hc with heq2 | hbig2
      · subst heq2
        rw [if_neg (by simp)] at h2
        rw [if_pos (by rw [abs_of_nonpos (by linarith)]; linarith)]
        linarith
      · rw [if_pos hbig2] at h2
        have hlt2 : zb - zc < -(1/1000) := by
          rcases abs_cases (zb - zc) with ⟨he, _⟩ | ⟨he, _⟩
          · rw [he] at hbig2
            linarith
          · rw [he] at hbig2
            linarith
        rw [if_pos (by rw [abs_of_nonpos (by linarith)]; linarith)]
        linarith

/-- Local version of the sortedness of `List.merge`: transitivity and totality
of the comparison are only required on elements satisfying `P`. -/
theorem pairwise_merge_local {α : Type} (le : α → α → Bool) (P : α → Prop)
    (htrans : ∀ x y z, P x → P y → P z → le x y = true → le y z = true → le x z = true)
    (htotal : ∀ x y, P x → P y → le x y = true ∨ le y x = true) :
    ∀ (l₁ l₂ : List α), (∀ x ∈ l₁, P x) → (∀ x ∈ l₂, P x) →
      l₁.Pairwise (fun x y => le x y = true) → l₂.Pairwise (fun x y => le x y = true) →
      (List.merge l₁ l₂ le).Pairwise (fun x y => le x y = true) := by
  intro l₁
  induction l₁ with
  | nil =>
    intro l₂ _ _ _ h₂
    simpa using h₂
  | cons x l₁ ih₁ =>
    intro l₂
    induction l₂ with
    | nil =>
      intro hP₁ _ h₁ _
      simpa using h₁
    | cons y l₂ ih₂ =>
      intro hP₁ hP₂ h₁ h₂
      rw [List.cons_merge_cons]
      split_ifs with hxy
      · refine List.Pairwise.cons ?_
          (ih₁ (y :: l₂) (fun w hw => hP₁ w (List.mem_cons_of_mem x hw)) hP₂ h₁.tail h₂)
        intro z hz
        rw [List.mem_merge] at hz
        rcases hz with hz | hz
        · exact List.rel_of_pairwise_cons h₁ hz
        · rcases List.mem_cons.mp hz with rfl | hz
          · exact hxy
          · exact htrans x y z (hP₁ x (List.mem_cons_self x l₁))
              (hP₂ y (List.mem_cons_self y l₂)) (hP₂ z (List.mem_cons_of_mem y hz))
              hxy (List.rel_of_pairwise_cons h₂ hz)
      · have hyx : le y x = true := by
          rcases htotal x y (hP₁ x (List.mem_cons_self x l₁))
            (hP₂ y (List.mem_cons_self y l₂)) with h | h
          · exact absurd h hxy
          · exact h
        refine List.Pairwise.cons ?_
          (ih₂ hP₁ (fun w hw => hP₂ w (List.mem_cons_of_mem y hw)) h₁ h₂.tail)
        intro z hz
        rw [List.mem_merge] at hz
        rcases hz with hz | hz
        · rcases List.mem_cons.mp hz with rfl | hz
          · exact hyx
          · exact htrans y x z (hP₂ y (List.mem_cons_self y l₂))
              (hP₁ x (List.mem_cons_self x l₁)) (hP₁ z (List.mem_cons_of_mem x hz))
              hyx (List.rel_of_pairwise_cons h₁ hz)
        · exact List.rel_of_pairwise_cons h₂ hz

/-- Membership transfer through the first half of `List.splitInTwo`. -/
theorem mem_splitInTwo_fst {α : Type} {n : ℕ} (l : {l : List α // l.length = n})
    {w : α} (hw : w ∈ (List.splitInTwo l).1.1) : w ∈ l.1 := by
  rw [List.splitInTwo_fst] at hw
  exact List.mem_of_mem_take hw

/-- Membership transfer through the second half of `List.splitInTwo`. -/
theorem mem_splitInTwo_snd {α : Type} {n : ℕ} (l : {l : List α // l.length = n})
    {w : α} (hw : w ∈ (List.splitInTwo l).2.1) : w ∈ l.1 := by
  rw [List.splitInTwo_snd] at hw
  exact List.mem_of_mem_drop hw

/-- Local version of the sortedness of `List.mergeSort`: transitivity and
totality of the comparison are only required on the list's own elements. -/
theorem pairwise_mergeSort_local {α : Type} (le : α → α → Bool) (P : α → Prop)
    (htrans : ∀ x y z, P x → P y → P z → le x y = true → le y z = true → le x z = true)
    (htotal : ∀ x y, P x → P y → le x y = true ∨ le y x = true) :
    ∀ (l : List α), (∀ x ∈ l, P x) →
      (l.mergeSort le).Pairwise (fun x y => le x y = true)
  | [], _ => by simp
  | [a], _ => by simp
  | a :: b :: xs, hP => by
    have h1 : (List.splitInTwo ⟨a :: b :: xs, rfl⟩).1.1.length < xs.length + 1 + 1 := by
      simp [List.splitInTwo_fst]
      omega
    have h2 : (List.splitInTwo ⟨a :: b :: xs, rfl⟩).2.1.length < xs.length + 1 + 1 := by
      simp [List.splitInTwo_snd]
      omega
    rw [List.mergeSort]
    exact pairwise_merge_local le P htrans htotal _ _
      (fun w hw => hP w (mem_splitInTwo_fst _ (List.mem_mergeSort.mp hw)))
      (fun w hw => hP w (mem_splitInTwo_snd _ (List.mem_mergeSort.mp hw)))
      (pairwise_mergeSort_local le P htrans htotal _
        (fun w hw => hP w (mem_splitInTwo_fst _ hw)))
      (pairwise_mergeSort_local le P htrans htotal _
        (fun w hw => hP w (mem_splitInTwo_snd _ hw)))
termination_by l => l.length

/-- `mergeSort` is idempotent on a list over which the comparison is
transitive and total. -/
theorem mergeSort_idem_local {α : Type} (le : α → α → Bool) (P : α → Prop)
    (htrans : ∀ x y z, P x → P y → P z → le x y = true → le y z = true → le x z = true)
    (htotal : ∀ x y, P x → P y → le x y = true ∨ le y x = true)
    (l : List α) (hP : ∀ x ∈ l, P x) :
    (l.mergeSort le).mergeSort le = l.mergeSort le :=
  List.mergeSort_of_sorted (pairwise_mergeSort_local le P htrans htotal l hP)

/-- A minimal instance with only a file path (all optional ordering keys
absent), mirroring the test helper `createInstance`. -/
def baseInst (path : String) : DicomInstance ℚ :=
  { filePath := path
    sopInstanceUID := path
    instanceNumber := none
    imagePositionPatient := none
    sliceLocation := none
    acquisitionNumber := none
    rows := none
    columns := none
    bitsAllocated := none
    bitsStored := none
    pixelRepresentation := none
    photometricInterpretation := none
    rescaleSlope := 1
    rescaleIntercept := 0
    windowCenter := none
    windowWidth := none
    numberOfFrames := none
    transferSyntaxUID := none }

/-- C4 (amended): the five-level comparator is transitive on instances that
share a presence pattern for the four optional keys and whose Z-position and
slice-location values are tolerance-clean (pairwise equal or more than 0.001
apart); in general it is not transitive (see the counterexample). -/
theorem comparator_transitive_on_clean (a b c : DicomInstance ℚ)
    (sab : SameShape a b) (sbc : SameShape b c)
    (cab : CleanPair a b) (cbc : CleanPair b c)
    (h1 : cmpInstances a b ≤ 0) (h2 : cmpInstances b c ≤ 0) :
    cmpInstances a c ≤ 0 :=
  cmpInstances_trans_clean sab sbc cab cbc h1 h2

/-- Instance at Z = 0.0016 with instance number 1. -/
def cexA : DicomInstance ℚ :=
  { baseInst "a" with
      imagePositionPatient := some [0, 0, 16/10000]
      instanceNumber := some 1 }

/-- Instance at Z = 0.0008 with instance number 2. -/
def cexB : DicomInstance ℚ :=
  { baseInst "b" with
      imagePositionPatient := some [0, 0, 8/10000]
      instanceNumber := some 2 }

/-- Instance at Z = 0 with instance number 3. -/
def cexC : DicomInstance ℚ :=
  { baseInst "c" with
      imagePositionPatient := some [0, 0, 0]
      instanceNumber := some 3 }

/-- C4 counterexample: with Z positions 0.0016, 0.0008, 0 and instance
numbers 1, 2, 3, consecutive pairs are within the 0.001 tolerance (so they
compare by instance number: a before b, b before c) but the outer pair
differs in Z by 0.0016, so c strictly precedes a — the three pairwise
comparisons are inconsistent and less-than-or-equal is not transitive.
Every verdict here is forced by the comparator's own arithmetic and
tolerance guard (no implementation-defined library call such as
`localeCompare` is reached), and the three tolerance tests evaluate
identically over IEEE doubles, so this refutation is a fact of the source
independent of the JS engine. -/
theorem comparator_not_transitive :
    cmpInstances cexA cexB ≤ 0 ∧ cmpInstances cexB cexC ≤ 0 ∧
      ¬ cmpInstances cexA cexC ≤ 0 := by
  have hAB : cmpInstances cexA cexB = -1 := by
    rw [cmpInstances_eval_z (show zVal cexA = some (16/10000) from rfl)
      (show zVal cexB = some (8/10000) from rfl)]
    rw [if_neg (by rw [abs_of_nonneg (by norm_num)]; norm_num)]
    rw [cmpFrom2_none (Or.inl rfl), cmpFrom3_eval rfl rfl]
    norm_num
  have hBC : cmpInstances cexB cexC = -1 := by
    rw [cmpInstances_eval_z (show zVal cexB = some (8/10000) from rfl)
      (show zVal cexC = some 0 from rfl)]
    rw [if_neg (by rw [abs_of_nonneg (by norm_num)]; norm_num)]
    rw [cmpFrom2_none (Or.inl rfl), cmpFrom3_eval rfl rfl]
    norm_num
  have hAC : cmpInstances cexA cexC = 16/10000 := by
    rw [cmpInstances_eval_z (show zVal cexA = some (16/10000) from rfl)
      (show zVal cexC = some 0 from rfl)]
    rw [if_pos (by rw [abs_of_nonneg (by norm_num)]; norm_num)]
    norm_num
  refine ⟨by rw [hAB]; norm_num, by rw [hBC]; norm_num, by rw [hAC]; norm_num⟩

/-- Witness instance with instance number 1. -/
def witX : DicomInstance ℚ := { baseInst "x" with instanceNumber := some 1 }

/-- Witness instance with instance number 2. -/
def witY : DicomInstance ℚ := { baseInst "y" with instanceNumber := some 2 }

/-- Witness instance with instance number 3. -/
def witZ : DicomInstance ℚ := { baseInst "z" with instanceNumber := some 3 }

/-- Witness for `comparator_transitive_on_clean`: three instances carrying
only instance numbers 1, 2, 3. -/
theorem comparator_transitive_on_clean_witness :
    cmpInstances witX witZ ≤ 0 := by
  have c12 : cmpInstances witX witY ≤ 0 := by
    rw [cmpInstances_none witX witY (level1_none witX witY (Or.inl rfl)),
      cmpFrom2_none (Or.inl rfl), cmpFrom3_eval rfl rfl]
    norm_num
  have c23 : cmpInstances witY witZ ≤ 0 := by
    rw [cmpInstances_none witY witZ (level1_none witY witZ (Or.inl rfl)),
      cmpFrom2_none (Or.inl rfl), cmpFrom3_eval rfl rfl]
    norm_num
  exact comparator_transitive_on_clean witX witY witZ
    ⟨rfl, rfl, rfl, rfl⟩ ⟨rfl, rfl, rfl, rfl⟩
    ⟨fun _ _ h _ => Option.noConfusion h, fun _ _ h _ => Option.noConfusion h⟩
    ⟨fun _ _ h _ => Option.noConfusion h, fun _ _ h _ => Option.noConfusion h⟩
    c12 c23

/-- C5 (amended): at the two tolerance levels (Z position, slice location) a
comparable-but-equal result (difference within 0.001) falls through to the
next level; but at the instance-number level, whenever both instances carry
values the cascade ends with their exact difference — equal instance numbers
end the cascade with verdict 0 without consulting acquisition numbers or file
paths — and likewise at the acquisition-number level; the file-path level is
total (any two instances are comparable). -/
theorem cascade_fallthrough :
    (∀ (a b : DicomInstance ℚ) (za zb : ℚ), zVal a = some za → zVal b = some zb →
      |za - zb| ≤ 1/1000 → cmpInstances a b = cmpFrom2 a b) ∧
    (∀ (a b : DicomInstance ℚ) (sa sb : ℚ), a.sliceLocation = some sa →
      b.sliceLocation = some sb → |sa - sb| ≤ 1/1000 → cmpFrom2 a b = cmpFrom3 a b) ∧
    (∀ (a b : DicomInstance ℚ) (na nb : ℚ), a.instanceNumber = some na →
      b.instanceNumber = some nb → cmpFrom3 a b = na - nb) ∧
    (∀ (a b : DicomInstance ℚ) (na nb : ℚ), a.acquisitionNumber = some na →
      b.acquisitionNumber = some nb → cmpFrom4 a b = na - nb) ∧
    (∀ a b : DicomInstance ℚ, cmpInstances a b ≤ 0 ∨ cmpInstances b a ≤ 0) := by
  refine ⟨?_, ?_, fun a b na nb ha hb => cmpFrom3_eval ha hb,
    fun a b na nb ha hb => cmpFrom4_eval ha hb, cmpInstances_total⟩
  · intro a b za zb ha hb htol
    rw [cmpInstances_eval_z ha hb, if_neg (not_lt.mpr htol)]
  · intro a b sa sb ha hb htol
    rw [cmpFrom2_eval ha hb, if_neg (not_lt.mpr htol)]

/-- Instance with instance number 5 and acquisition number 1. -/
def eqA : DicomInstance ℚ :=
  { baseInst "a" with instanceNumber := some 5, acquisitionNumber := some 1 }

/-- Instance with instance number 5 and acquisition number 2. -/
def eqB : DicomInstance ℚ :=
  { baseInst "b" with instanceNumber := some 5, acquisitionNumber := some 2 }

/-- C5 counterexample: two instances with equal instance numbers but different
acquisition numbers.  The claim requires the comparator to fall through and
compare acquisition numbers (which would give -1); instead it returns the
equality verdict 0 at the instance-number level. -/
theorem equal_instance_number_stops :
    cmpInstances eqA eqB = 0 ∧ cmpFrom4 eqA eqB = -1 ∧ (0 : ℚ) ≠ -1 := by
  refine ⟨?_, ?_, by norm_num⟩
  · rw [cmpInstances_none eqA eqB (level1_none eqA eqB (Or.inl rfl)),
      cmpFrom2_none (Or.inl rfl), cmpFrom3_eval rfl rfl]
    norm_num
  · rw [cmpFrom4_eval rfl rfl]
    norm_num

/-- Witness for `cascade_fallthrough`: the tolerance level falls through on a
0.0008 difference, and equal instance numbers produce verdict 0. -/
theorem cascade_fallthrough_witness :
    cmpInstances cexA cexB = cmpFrom2 cexA cexB ∧ cmpFrom3 eqA eqB = 5 - 5 :=
  ⟨cascade_fallthrough.1 cexA cexB (16/10000) (8/10000) rfl rfl
      (by rw [abs_of_nonneg (by norm_num)]; norm_num),
   cascade_fallthrough.2.2.1 eqA eqB 5 5 rfl rfl⟩

/-- Model-level sort facts: `sortInstances` always returns a permutation of
its input (true of every conforming `Array.prototype.sort`); and on inputs
whose instances share a presence pattern and are tolerance-clean — so the
comparator is a consistent comparison function and the stable-sorted order
is engine-independent — sorting an already-sorted list returns the same
sequence (`sortInstances` composed with itself equals a single
application). -/
theorem sortInstances_perm_and_idem :
    (∀ l : List (DicomInstance ℚ), (sortInstances l).Perm l) ∧
    (∀ l : List (DicomInstance ℚ),
      (∀ a ∈ l, ∀ b ∈ l, SameShape a b) →
      (∀ a ∈ l, ∀ b ∈ l, CleanPair a b) →
      sortInstances (sortInstances l) = sortInstances l) := by
  constructor
  · intro l
    exact List.mergeSort_perm l _
  · intro l hshape hclean
    simp only [sortInstances]
    apply mergeSort_idem_local _ (fun x => x ∈ l)
    · intro x y z hx hy hz hxy hyz
      rw [decide_eq_true_eq] at hxy hyz ⊢
      exact cmpInstances_trans_clean (hshape x hx y hy) (hshape y hy z hz)
        (hclean x hx y hy) (hclean y hy z hz) hxy hyz
    · intro x y hx hy
      rcases cmpInstances_total x y with h | h
      · exact Or.inl (by rw [decide_eq_true_eq]; exact h)
      · exact Or.inr (by rw [decide_eq_true_eq]; exact h)
    · exact fun x hx => hx

/-- Witness for `sortInstances_perm_and_idem` on the two-element list
`[eqA, eqB]` (uniform shape, clean tolerances). -/
theorem sortInstances_perm_and_idem_witness :
    (sortInstances [eqA, eqB]).Perm [eqA, eqB] ∧
    sortInstances (sortInstances [eqA, eqB]) = sortInstances [eqA, eqB] := by
  have hA : ∀ x ∈ [eqA, eqB], zVal x = none ∧ x.sliceLocation = none ∧
      x.instanceNumber.isSome = true ∧ x.acquisitionNumber.isSome = true := by
    intro x hx
    rcases List.mem_cons.mp hx with rfl | hx
    · exact ⟨rfl, rfl, rfl, rfl⟩
    · rcases List.mem_singleton.mp hx with rfl
      exact ⟨rfl, rfl, rfl, rfl⟩
  refine ⟨sortInstances_perm_and_idem.1 [eqA, eqB],
    sortInstances_perm_and_idem.2 [eqA, eqB] ?_ ?_⟩
  · intro a ha b hb
    obtain ⟨a1, a2, a3, a4⟩ := hA a ha
    obtain ⟨b1, b2, b3, b4⟩ := hA b hb
    refine ⟨?_, ?_, a3.trans b3.symm, a4.trans b4.symm⟩
    · rw [a1, b1]
    · rw [a2, b2]
  · intro a ha b hb
    refine ⟨fun za zb h _ => ?_, fun sa sb h _ => ?_⟩
    · rw [(hA a ha).1] at h
      exact Option.noConfusion h
    · rw [(hA a ha).2.1] at h
      exact Option.noConfusion h

/-- One acquisition run (`DicomSeries` in types/dicom.ts): raw instance list
in arrival order plus the separately materialised sorted list. -/
structure DicomSeries (ν : Type) where
  seriesInstanceUID : String
  seriesNumber : Option ν
  seriesDescription : Option String
  modality : String
  studyInstanceUID : String
  instances : List (DicomInstance ν)
  sortedInstances : List (DicomInstance ν)
deriving DecidableEq

/-- One imaging encounter (`DicomStudy` in types/dicom.ts); the series `Map`
is modelled as an insertion-ordered association list. -/
structure DicomStudy (ν : Type) where
  studyInstanceUID : String
  studyDate : Option String
  studyTime : Option String
  studyDescription : Option String
  patientName : Option String
  patientId : Option String
  patientBirthDate : Option String
  patientSex : Option String
  accessionNumber : Option String
  institutionName : Option String
  referringPhysicianName : Option String
  series : List (String × DicomSeries ν)
deriving DecidableEq

/-- JS `Map.set` on an existing key: update the value in place, keeping the
insertion order. -/
def alSet {β : Type} (k : String) (v : β) : List (String × β) → List (String × β)
  | [] => []
  | (k', v') :: rest => if k' = k then (k', v) :: rest else (k', v') :: alSet k v rest

/-- The study record created on first sight of a study UID (dicomParser.ts
lines 337-351): descriptive fields from this file's study info. -/
def newStudy (file : ParsedDicomFile ℚ) : DicomStudy ℚ :=
  { studyInstanceUID := file.studyInstanceUID
    studyDate := file.studyInfo.studyDate
    studyTime := file.studyInfo.studyTime
    studyDescription := file.studyInfo.studyDescription
    patientName := file.studyInfo.patientName
    patientId := file.studyInfo.patientId
    patientBirthDate := file.studyInfo.patientBirthDate
    patientSex := file.studyInfo.patientSex
    accessionNumber := file.studyInfo.accessionNumber
    institutionName := file.studyInfo.institutionName
    referringPhysicianName := file.studyInfo.referringPhysicianName
    series := [] }

/-- The series record created on first sight of a series UID within a study
(dicomParser.ts lines 356-366). -/
def newSeries (file : ParsedDicomFile ℚ) : DicomSeries ℚ :=
  { seriesInstanceUID := file.seriesInstanceUID
    seriesNumber := file.seriesInfo.seriesNumber
    seriesDescription := file.seriesInfo.seriesDescription
    modality := (file.seriesInfo.modality).getD "OT"
    studyInstanceUID := file.studyInstanceUID
    instances := []
    sortedInstances := [] }

/-- One fold step of `groupDicomFiles` (dicomParser.ts lines 333-371):
get-or-create the study, get-or-create the series within it, append the
file's instance to the series. -/
def addFile (studies : List (String × DicomStudy ℚ)) (file : ParsedDicomFile ℚ) :
    List (String × DicomStudy ℚ) :=
  match studies.lookup file.studyInstanceUID with
  | none =>
    studies ++ [(file.studyInstanceUID,
      { newStudy file with
          series := [(file.seriesInstanceUID,
            { newSeries file with instances := [file.inst] })] })]
  | some study =>
    match study.series.lookup file.seriesInstanceUID with
    | none =>
      alSet file.studyInstanceUID
        { study with
            series := study.series ++ [(file.seriesInstanceUID,
              { newSeries file with instances := [file.inst] })] }
        studies
    | some series =>
      alSet file.studyInstanceUID
        { study with
            series := alSet file.seriesInstanceUID
              { series with instances := series.instances ++ [file.inst] }
              study.series }
        studies

/-- `groupDicomFiles` (dicomParser.ts lines 330-381): fold the parsed files
into the study tree, then recompute `sortedInstances` for every series. -/
def groupDicomFiles (parsedFiles : List (ParsedDicomFile ℚ)) :
    List (String × DicomStudy ℚ) :=
  let studies := parsedFiles.foldl addFile []
  studies.map (fun st => (st.1,
    { st.2 with
        series := st.2.series.map (fun se => (se.1,
          { se.2 with sortedInstances := sortInstances se.2.instances })) }))

/-- A parsed-file record with the given identifiers and no optional data,
mirroring the test helper `createParsedFile`. -/
def mkParsed (study series sop : String) : ParsedDicomFile ℚ :=
  { filePath := "/p/" ++ sop ++ ".dcm"
    studyInstanceUID := study
    seriesInstanceUID := series
    sopInstanceUID := sop
    inst := { baseInst ("/p/" ++ sop ++ ".dcm") with sopInstanceUID := sop }
    studyInfo :=
      { studyInstanceUID := some study
        studyDate := none
        studyTime := none
        studyDescription := none
        patientName := none
        patientId := none
        patientBirthDate := none
        patientSex := none
        accessionNumber := none
        institutionName := none
        referringPhysicianName := none }
    seriesInfo :=
      { seriesInstanceUID := some series
        seriesNumber := none
        seriesDescription := none
        modality := some "OT"
        studyInstanceUID := some study }
    metadata := [] }

/-- The four file records of the grouping scenario: (S1,A), (S1,A), (S1,B),
(S2,C). -/
def fourFiles : List (ParsedDicomFile ℚ) :=
  [mkParsed "S1" "A" "i1", mkParsed "S1" "A" "i2",
   mkParsed "S1" "B" "i3", mkParsed "S2" "C" "i4"]

/-- C8: folding the four records through `groupDicomFiles` yields exactly 2
studies; study S1 has 2 series (A with 2 instances, B with 1); study S2 has 1
series (C with 1 instance). -/
theorem grouping_scenario :
    (groupDicomFiles fourFiles).length = 2 ∧
    ((groupDicomFiles fourFiles).lookup "S1").map (fun st => st.series.length)
      = some 2 ∧
    (((groupDicomFiles fourFiles).lookup "S1").bind
        (fun st => st.series.lookup "A")).map (fun se => se.instances.length)
      = some 2 ∧
    (((groupDicomFiles fourFiles).lookup "S1").bind
        (fun st => st.series.lookup "B")).map (fun se => se.instances.length)
      = some 1 ∧
    ((groupDicomFiles fourFiles).lookup "S2").map (fun st => st.series.length)
      = some 1 ∧
    (((groupDicomFiles fourFiles).lookup "S2").bind
        (fun st => st.series.lookup "C")).map (fun se => se.instances.length)
      = some 1 :=
  ⟨rfl, rfl, rfl, rfl, rfl, rfl⟩
